import Mathlib

/-!
Shallow embedding of the fiber-bearer-token middleware (bearertoken.go).

The middleware `New` resolves a `Config` (four string keys with defaults) and
returns a per-request handler.  The handler looks up the token in the query
parameters, the form body and the `Authorization` header (in this order),
flags a conflict when a later source contributes while the cached token is
non-empty, and either rejects the request with status 400 or publishes the
token in the request-scoped locals under `config.requestKey` and calls the
next handler.
-/

namespace BearerToken

/-- The middleware configuration (Go struct `Config`).  Empty fields mean
"unset" before resolution. -/
structure Config where
  bodyKey : String
  headerKey : String
  queryKey : String
  requestKey : String
deriving DecidableEq, Repr

/-- The default configuration values hard-coded in `New`. -/
def defaultConfig : Config :=
  { bodyKey := "access_token"
    headerKey := "Bearer"
    queryKey := "access_token"
    requestKey := "token" }

/-- Configuration resolution performed at the top of `New`: start from the
defaults and override each field independently when the caller supplied a
non-empty value (`len(opts.X) > 0`).  `none` models the `nil` options
pointer. -/
def New (opts : Option Config) : Config :=
  let config := defaultConfig
  match opts with
  | none => config
  | some o =>
    { bodyKey := if o.bodyKey.length > 0 then o.bodyKey else config.bodyKey
      headerKey := if o.headerKey.length > 0 then o.headerKey else config.headerKey
      queryKey := if o.queryKey.length > 0 then o.queryKey else config.queryKey
      requestKey := if o.requestKey.length > 0 then o.requestKey else config.requestKey }

/-- The parts of the Fiber request context the handler reads: query-parameter
lookup, body-field lookup (both return the empty string when absent, as in
Fiber) and the value of the `Authorization` header (empty string when the
header is absent; Fiber's `ctx.Get` is case-insensitive, so a single field
suffices). -/
structure Request where
  query : String → String
  body : String → String
  authorization : String

/-- The space character the Go code splits on (`strings.SplitN(v, " ", 2)`). -/
def spaceChar : Char := ' '

/-- Split a character list at the first occurrence of `sep`:
`some (before, after)` when `sep` occurs, `none` otherwise. -/
def splitCharsAt (sep : Char) : List Char → Option (List Char × List Char)
  | [] => none
  | c :: cs =>
    if c = sep then some ([], cs)
    else
      match splitCharsAt sep cs with
      | none => none
      | some (a, b) => some (c :: a, b)

/-- Go's `strings.SplitN(s, " ", 2)`: the substring before the first space and
the remainder after it, or the single-element list `[s]` when `s` has no
space. -/
def splitN2 (s : String) : List String :=
  match splitCharsAt spaceChar s.data with
  | none => [s]
  | some (a, b) => [String.mk a, String.mk b]

/-- The token-extraction core of the handler returned by `New`
(bearertoken.go lines 110-145): returns the final `(errored, token)` pair. -/
def extract (config : Config) (req : Request) : Bool × String :=
  let token : String := ""
  let errored : Bool := false
  let queryValue := req.query config.queryKey
  let (errored, token) :=
    if queryValue.length > 0 then (errored, queryValue) else (errored, token)
  let bodyValue := req.body config.bodyKey
  let (errored, token) :=
    if bodyValue.length > 0 then
      ((if token.length > 0 then true else errored), bodyValue)
    else (errored, token)
  let headerValue := req.authorization
  let (errored, token) :=
    if headerValue.length > 0 then
      match splitN2 headerValue with
      | [scheme, credential] =>
        if scheme = config.headerKey then
          ((if token.length > 0 then true else errored), credential)
        else (errored, token)
      | _ => (errored, token)
    else (errored, token)
  (errored, token)

/-- The observable state of the request context the handler mutates:
request-scoped locals, response status, the body sent (if any) and whether
`ctx.Next()` was called. -/
structure Ctx where
  locals : List (String × String)
  status : Nat
  sentBody : Option String
  nextCalled : Bool
deriving DecidableEq, Repr

/-- A fresh context: no locals, default 200 status, nothing sent, next handler
not yet invoked. -/
def ctx0 : Ctx :=
  { locals := [], status := 200, sentBody := none, nextCalled := false }

/-- `ctx.Locals(key, value)`: record a request-scoped binding (most recent
binding shadows older ones). -/
def setLocal (locals : List (String × String)) (key value : String) :
    List (String × String) :=
  (key, value) :: locals

/-- Read a request-scoped binding: the most recently set value for `key`. -/
def getLocal (locals : List (String × String)) (key : String) : Option String :=
  match locals with
  | [] => none
  | (k, v) :: rest => if k = key then some v else getLocal rest key

/-- The full handler returned by `New` (lines 110-153): run `extract`, then
either `ctx.Status(400).Send()` or `ctx.Locals(config.RequestKey, token)`
followed by `ctx.Next()`. -/
def handle (config : Config) (req : Request) (ctx : Ctx) : Ctx :=
  let (errored, token) := extract config req
  if errored then
    { ctx with status := 400, sentBody := some "" }
  else
    { ctx with locals := setLocal ctx.locals config.requestKey token
               nextCalled := true }

/-- The three token sources. -/
inductive Source
  | query
  | body
  | header
deriving DecidableEq, Repr

/-- What a source contributes on a given request: `some v` exactly when the
corresponding branch of the handler would overwrite the token with `v`
(query/body: the looked-up value when non-empty; header: the credential
component — possibly empty — when the header is present, splits in two and
the scheme equals `config.headerKey`). -/
def sourceValue (config : Config) (req : Request) : Source → Option String
  | Source.query =>
    let v := req.query config.queryKey
    if v.length > 0 then some v else none
  | Source.body =>
    let v := req.body config.bodyKey
    if v.length > 0 then some v else none
  | Source.header =>
    let hv := req.authorization
    if hv.length > 0 then
      match splitN2 hv with
      | [scheme, credential] =>
        if scheme = config.headerKey then some credential else none
      | _ => none
    else none

/-- One step of the extraction loop on the `(errored, token)` state. -/
def step (st : Bool × String) (v : Option String) : Bool × String :=
  match v with
  | none => st
  | some value => ((if st.2.length > 0 then true else st.1), value)

/-- The order in which the Go code checks the sources. -/
def stdOrder : List Source := [Source.query, Source.body, Source.header]

/-- Extraction generalized to an arbitrary order of source checks. -/
def extractOrder (config : Config) (req : Request) (order : List Source) :
    Bool × String :=
  order.foldl (fun st s => step st (sourceValue config req s)) (false, "")

/-- Whether a source supplies a non-empty token value. -/
def suppliesNonempty (config : Config) (req : Request) (s : Source) : Bool :=
  match sourceValue config req s with
  | some v => v.length > 0
  | none => false

/-- How many of the three sources supply a non-empty token value. -/
def numSupplying (config : Config) (req : Request) : Nat :=
  (stdOrder.filter (suppliesNonempty config req)).length

/-- How many of the three sources contribute at all (the header counts even
when its credential component is empty). -/
def numContributing (config : Config) (req : Request) : Nat :=
  (stdOrder.filter (fun s => (sourceValue config req s).isSome)).length

/-- A request carrying nothing. -/
def reqEmpty : Request :=
  { query := fun _ => "", body := fun _ => "", authorization := "" }

/-- A request whose only source is the query parameter `access_token`. -/
def reqQueryOnly : Request :=
  { query := fun k => if k = "access_token" then "nanachi-cute" else ""
    body := fun _ => ""
    authorization := "" }

/-- A request whose only source is the form-body field `access_token`. -/
def reqBodyOnly : Request :=
  { query := fun _ => ""
    body := fun k => if k = "access_token" then "nanachi-cute" else ""
    authorization := "" }

/-- A request whose only source is the `Authorization: Bearer nanachi-cute`
header. -/
def reqHeaderOnly : Request :=
  { query := fun _ => ""
    body := fun _ => ""
    authorization := "Bearer nanachi-cute" }

/-- A request supplying the token both as a query parameter and in the
`Authorization` header. -/
def reqQueryHeader : Request :=
  { query := fun k => if k = "access_token" then "nanachi-cute" else ""
    body := fun _ => ""
    authorization := "Bearer nanachi-cute" }

/-- A request with a non-empty query token and an `Authorization` header that
is the scheme `Bearer` followed by a single space: the header's credential
component is empty. -/
def reqQueryEmptyCredHeader : Request :=
  { query := fun k => if k = "access_token" then "nanachi-cute" else ""
    body := fun _ => ""
    authorization := "Bearer " }

/-- A request with a mismatched-scheme header and nothing else. -/
def reqBasicHeader : Request :=
  { query := fun _ => ""
    body := fun _ => ""
    authorization := "Basic nanachi-cute" }

/-- A resolved configuration with all four keys renamed (test scenario 6). -/
def cfgCustom : Config :=
  New (some { bodyKey := "custom_token", headerKey := "custom_token",
              queryKey := "custom_token", requestKey := "bearer" })

/-- A request supplying the token only through the renamed query key. -/
def reqCustomQuery : Request :=
  { query := fun k => if k = "custom_token" then "nanachi-cute" else ""
    body := fun _ => ""
    authorization := "" }

end BearerToken

namespace BearerToken

theorem length_pos_iff_ne (s : String) : 0 < s.length ↔ s ≠ "" := by
  cases s with
  | mk l => cases l <;> simp [String.length, String.ext_iff]

theorem handle_errored (config : Config) (req : Request) (ctx : Ctx)
    (h : (extract config req).1 = true) :
    handle config req ctx = { ctx with status := 400, sentBody := some "" } := by
  unfold handle
  rcases hx : extract config req with ⟨e, t⟩
  rw [hx] at h
  simp at h
  subst h
  simp

theorem handle_success (config : Config) (req : Request) (ctx : Ctx)
    (h : (extract config req).1 = false) :
    handle config req ctx =
      { ctx with locals := setLocal ctx.locals config.requestKey (extract config req).2,
                 nextCalled := true } := by
  unfold handle
  rcases hx : extract config req with ⟨e, t⟩
  rw [hx] at h
  simp at h
  subst h
  simp

end BearerToken

namespace BearerToken

theorem extract_eq_steps (config : Config) (req : Request) :
    extract config req
      = step (step (step (false, "") (sourceValue config req Source.query))
          (sourceValue config req Source.body))
          (sourceValue config req Source.header) := by
  by_cases hq : 0 < (req.query config.queryKey).length <;>
  by_cases hb : 0 < (req.body config.bodyKey).length <;>
  by_cases hh : 0 < req.authorization.length <;>
  rcases hsp : splitN2 req.authorization with _ | ⟨x, _ | ⟨y, _ | ⟨z, l⟩⟩⟩ <;>
  first
  | (by_cases hs : x = config.headerKey <;>
     simp [extract, sourceValue, step, hq, hb, hh, hsp, hs])
  | simp [extract, sourceValue, step, hq, hb, hh, hsp]

theorem extract_errored_char (config : Config) (req : Request) :
    (extract config req).1
      = (((sourceValue config req Source.query).isSome &&
          (sourceValue config req Source.body).isSome) ||
         ((sourceValue config req Source.header).isSome &&
          ((sourceValue config req Source.query).isSome ||
           (sourceValue config req Source.body).isSome))) := by
  by_cases hq : 0 < (req.query config.queryKey).length <;>
  by_cases hb : 0 < (req.body config.bodyKey).length <;>
  by_cases hh : 0 < req.authorization.length <;>
  rcases hsp : splitN2 req.authorization with _ | ⟨x, _ | ⟨y, _ | ⟨z, l⟩⟩⟩ <;>
  first
  | (by_cases hs : x = config.headerKey <;>
     simp [extract, sourceValue, hq, hb, hh, hsp, hs])
  | simp [extract, sourceValue, hq, hb, hh, hsp]

theorem extract_token_char (config : Config) (req : Request) :
    (extract config req).2
      = ((sourceValue config req Source.header).getD
          ((sourceValue config req Source.body).getD
            ((sourceValue config req Source.query).getD ""))) := by
  by_cases hq : 0 < (req.query config.queryKey).length <;>
  by_cases hb : 0 < (req.body config.bodyKey).length <;>
  by_cases hh : 0 < req.authorization.length <;>
  rcases hsp : splitN2 req.authorization with _ | ⟨x, _ | ⟨y, _ | ⟨z, l⟩⟩⟩ <;>
  first
  | (by_cases hs : x = config.headerKey <;>
     simp [extract, sourceValue, hq, hb, hh, hsp, hs])
  | simp [extract, sourceValue, hq, hb, hh, hsp]

end BearerToken

namespace BearerToken

theorem extract_eq_extractOrder (config : Config) (req : Request) :
    extract config req = extractOrder config req stdOrder := by
  rw [extract_eq_steps]
  rfl

theorem sourceValue_query_ne (config : Config) (req : Request) (v : String)
    (h : sourceValue config req Source.query = some v) : v ≠ "" := by
  unfold sourceValue at h
  by_cases hq : 0 < (req.query config.queryKey).length
  · simp only [hq, if_pos] at h
    injection h with h
    rw [← h]
    exact (length_pos_iff_ne _).mp hq
  · simp [hq] at h

theorem sourceValue_body_ne (config : Config) (req : Request) (v : String)
    (h : sourceValue config req Source.body = some v) : v ≠ "" := by
  unfold sourceValue at h
  by_cases hb : 0 < (req.body config.bodyKey).length
  · simp only [hb, if_pos] at h
    injection h with h
    rw [← h]
    exact (length_pos_iff_ne _).mp hb
  · simp [hb] at h

theorem splitN2_two_ne_empty (s a b : String) (h : splitN2 s = [a, b]) : s ≠ "" := by
  intro he
  rw [he] at h
  have hx : splitN2 "" = [""] := rfl
  rw [hx] at h
  simp at h

theorem sourceValue_header_of_split (config : Config) (req : Request) (c : String)
    (hsp : splitN2 req.authorization = [config.headerKey, c]) :
    sourceValue config req Source.header = some c := by
  have hne := splitN2_two_ne_empty _ _ _ hsp
  have hpos : 0 < req.authorization.length := (length_pos_iff_ne _).mpr hne
  simp [sourceValue, hpos, hsp]

end BearerToken

namespace BearerToken

theorem step_none (st : Bool × String) : step st none = st := rfl

theorem step_some (st : Bool × String) (v : String) :
    step st (some v) = ((if st.2.length > 0 then true else st.1), v) := rfl

theorem foldl_errored_iff (config : Config) (req : Request) (l : List Source)
    (hne : ∀ s ∈ l, ∀ v, sourceValue config req s = some v → v ≠ "")
    (e : Bool) (t : String) :
    (l.foldl (fun st s => step st (sourceValue config req s)) (e, t)).1 = true
      ↔ (e = true
          ∨ (t ≠ "" ∧ 1 ≤ (l.filter fun s => (sourceValue config req s).isSome).length)
          ∨ 2 ≤ (l.filter fun s => (sourceValue config req s).isSome).length) := by
  induction l generalizing e t with
  | nil => simp
  | cons s rest ih =>
    have hrest : ∀ s' ∈ rest, ∀ v, sourceValue config req s' = some v → v ≠ "" :=
      fun s' hs' => hne s' (List.mem_cons_of_mem _ hs')
    rcases hv : sourceValue config req s with _ | v
    · rw [List.foldl_cons]
      simp only [hv, step_none, List.filter_cons, Option.isSome_none, Bool.false_eq_true,
        if_false]
      exact ih hrest e t
    · have hvne : v ≠ "" := hne s (List.mem_cons_self _ _) v hv
      rw [List.foldl_cons]
      simp only [hv, step_some, List.filter_cons, Option.isSome_some, if_true,
        List.length_cons]
      rw [ih hrest]
      by_cases ht : t = ""
      · subst ht
        cases e
        · simp [hvne]
          omega
        · simp [hvne]
      · have htpos : 0 < t.length := (length_pos_iff_ne _).mpr ht
        cases e <;> simp [htpos, ht]

end BearerToken

namespace BearerToken

/-- Claim C6 (amended): as long as every contributing source supplies a
non-empty value — in particular whenever the `Authorization` header either
does not contribute or contributes a non-empty credential — the conflict
outcome of extraction does not depend on the order in which the three
sources are checked. -/
theorem conflict_order_independent_of_nonempty (config : Config) (req : Request)
    (order : List Source) (hperm : order.Perm stdOrder)
    (hheader : ∀ v, sourceValue config req Source.header = some v → v ≠ "") :
    (extractOrder config req order).1 = (extract config req).1 := by
  have hne : ∀ l : List Source, ∀ s ∈ l, ∀ v, sourceValue config req s = some v → v ≠ "" := by
    intro l s _ v hv
    cases s with
    | query => exact sourceValue_query_ne config req v hv
    | body => exact sourceValue_body_ne config req v hv
    | header => exact hheader v hv
  have h1 := foldl_errored_iff config req order (hne order) false ""
  have h2 := foldl_errored_iff config req stdOrder (hne stdOrder) false ""
  have hcnt : (order.filter fun s => (sourceValue config req s).isSome).length
      = (stdOrder.filter fun s => (sourceValue config req s).isSome).length :=
    (hperm.filter _).length_eq
  rw [extract_eq_extractOrder]
  have hiff : (extractOrder config req order).1 = true
      ↔ (extractOrder config req stdOrder).1 = true := by
    unfold extractOrder
    rw [h1, h2, hcnt]
  cases hx : (extractOrder config req order).1 <;>
  cases hy : (extractOrder config req stdOrder).1 <;>
  simp_all

end BearerToken

namespace BearerToken

theorem resolve_eq (s d : String) :
    (if s.length > 0 then s else d) = if s = "" then d else s := by
  by_cases he : s = ""
  · simp [he]
  · simp [he, (length_pos_iff_ne _).mpr he]

theorem resolve_ne_empty (s d : String) (hd : d ≠ "") :
    (if s.length > 0 then s else d) ≠ "" := by
  by_cases hs : 0 < s.length
  · simpa [hs] using (length_pos_iff_ne _).mp hs
  · simp [hs, hd]

/-- Claim C7: each configuration field left empty resolves to its default
("access_token" / "Bearer" / "access_token" / "token"), each non-empty field
overrides its default independently of the others, and no field of a
resolved configuration is ever the empty string. -/
theorem config_resolution_defaults (opts : Config) :
    New none = { bodyKey := "access_token", headerKey := "Bearer",
                 queryKey := "access_token", requestKey := "token" } ∧
    (New (some opts)).bodyKey
      = (if opts.bodyKey = "" then "access_token" else opts.bodyKey) ∧
    (New (some opts)).headerKey
      = (if opts.headerKey = "" then "Bearer" else opts.headerKey) ∧
    (New (some opts)).queryKey
      = (if opts.queryKey = "" then "access_token" else opts.queryKey) ∧
    (New (some opts)).requestKey
      = (if opts.requestKey = "" then "token" else opts.requestKey) ∧
    (∀ o : Option Config, (New o).bodyKey ≠ "" ∧ (New o).headerKey ≠ ""
        ∧ (New o).queryKey ≠ "" ∧ (New o).requestKey ≠ "") := by
  refine ⟨rfl, resolve_eq _ _, resolve_eq _ _, resolve_eq _ _, resolve_eq _ _, ?_⟩
  intro o
  rcases o with _ | o
  · exact ⟨by decide, by decide, by decide, by decide⟩
  · exact ⟨resolve_ne_empty _ _ (by decide), resolve_ne_empty _ _ (by decide),
      resolve_ne_empty _ _ (by decide), resolve_ne_empty _ _ (by decide)⟩

/-- Claim C1: whenever two or more of the three sources supply a non-empty
token value, extraction flags a conflict and the handler terminates the
request with status 400, an empty response body, no publication to the
locals and without invoking the next handler. -/
theorem conflict_on_multiple_nonempty_sources (config : Config) (req : Request)
    (ctx : Ctx) (h : 2 ≤ numSupplying config req) :
    (extract config req).1 = true ∧
    handle config req ctx = { ctx with status := 400, sentBody := some "" } := by
  have herr : (extract config req).1 = true := by
    rw [extract_errored_char]
    rcases hq : sourceValue config req Source.query with _ | vq <;>
    rcases hb : sourceValue config req Source.body with _ | vb <;>
    rcases hh : sourceValue config req Source.header with _ | vh <;>
    simp_all [numSupplying, stdOrder, suppliesNonempty, List.filter_cons] <;>
    split at h <;>
    simp_all
  exact ⟨herr, handle_errored config req ctx herr⟩

/-- Claim C1 witness: query parameter and matching-scheme header both supply
"nanachi-cute"; the request is rejected with 400 and an empty body. -/
theorem conflict_on_multiple_nonempty_sources_witness :
    (extract (New none) reqQueryHeader).1 = true ∧
    handle (New none) reqQueryHeader ctx0
      = { ctx0 with status := 400, sentBody := some "" } :=
  conflict_on_multiple_nonempty_sources (New none) reqQueryHeader ctx0 (by decide)

/-- Claim C3 (counterexample): with the default configuration, a request with
query parameter `access_token=nanachi-cute` and header `Authorization: Bearer `
(scheme match, empty credential) has at most one source supplying a non-empty
value, yet extraction flags a conflict and the handler rejects with 400. -/
theorem conflict_with_single_nonempty_source_cex :
    numSupplying (New none) reqQueryEmptyCredHeader ≤ 1 ∧
    (extract (New none) reqQueryEmptyCredHeader).1 = true ∧
    handle (New none) reqQueryEmptyCredHeader ctx0
      = { ctx0 with status := 400, sentBody := some "" } := by
  refine ⟨by decide, by decide, by decide⟩

/-- Claim C3 (amended): conflict is raised only when more than one source
contributes, where query and body contribute exactly when non-empty and the
`Authorization` header contributes exactly when it splits into two components
whose scheme equals `config.headerKey` — even if the credential is empty.
With at most one contributing source there is no conflict. -/
theorem no_conflict_when_at_most_one_contributor (config : Config) (req : Request)
    (ctx : Ctx) (h : numContributing config req ≤ 1) :
    (extract config req).1 = false ∧
    handle config req ctx
      = { ctx with locals := setLocal ctx.locals config.requestKey (extract config req).2,
                   nextCalled := true } := by
  have herr : (extract config req).1 = false := by
    rw [extract_errored_char]
    rcases hq : sourceValue config req Source.query with _ | vq <;>
    rcases hb : sourceValue config req Source.body with _ | vb <;>
    rcases hh : sourceValue config req Source.header with _ | vh <;>
    simp_all [numContributing, stdOrder]
  exact ⟨herr, handle_success config req ctx herr⟩

/-- Claim C3 (amended) witness: a single query source passes through with no
conflict. -/
theorem no_conflict_when_at_most_one_contributor_witness :
    (extract (New none) reqQueryOnly).1 = false ∧
    handle (New none) reqQueryOnly ctx0
      = { ctx0 with locals := setLocal ctx0.locals (New none).requestKey
                      (extract (New none) reqQueryOnly).2,
                    nextCalled := true } :=
  no_conflict_when_at_most_one_contributor (New none) reqQueryOnly ctx0 (by decide)

/-- Claim C10: on conflict nothing is published to the request-scoped locals
(under `config.requestKey` or any other key) and the next handler is not
invoked; the handler only sets status 400 and sends an empty body. -/
theorem no_publication_on_conflict (config : Config) (req : Request) (ctx : Ctx)
    (h : (extract config req).1 = true) :
    (handle config req ctx).locals = ctx.locals ∧
    (handle config req ctx).nextCalled = ctx.nextCalled ∧
    handle config req ctx = { ctx with status := 400, sentBody := some "" } := by
  have hr := handle_errored config req ctx h
  rw [hr]
  exact ⟨rfl, rfl, rfl⟩

/-- Claim C10 witness: on the conflicting query+header request the locals stay
empty and the next handler is not called. -/
theorem no_publication_on_conflict_witness :
    (handle (New none) reqQueryHeader ctx0).locals = ctx0.locals ∧
    (handle (New none) reqQueryHeader ctx0).nextCalled = ctx0.nextCalled ∧
    handle (New none) reqQueryHeader ctx0
      = { ctx0 with status := 400, sentBody := some "" } :=
  no_publication_on_conflict (New none) reqQueryHeader ctx0 (by decide)

end BearerToken

namespace BearerToken

/-- Claim C2: when exactly one source supplies a non-empty value v (for the
header: the Authorization value splits on its first space into exactly two
components, the first equal to `config.headerKey`, and v is the credential
component) and the other two sources supply nothing, extraction succeeds
with token v and the handler publishes v and invokes the next handler. -/
theorem extract_single_source_token (config : Config) (req : Request) (v : String)
    (ctx : Ctx) (hv : v ≠ "")
    (h : (req.query config.queryKey = v ∧ req.body config.bodyKey = ""
            ∧ sourceValue config req Source.header = none)
       ∨ (req.query config.queryKey = "" ∧ req.body config.bodyKey = v
            ∧ sourceValue config req Source.header = none)
       ∨ (req.query config.queryKey = "" ∧ req.body config.bodyKey = ""
            ∧ splitN2 req.authorization = [config.headerKey, v])) :
    extract config req = (false, v) ∧
    handle config req ctx
      = { ctx with locals := setLocal ctx.locals config.requestKey v,
                   nextCalled := true } := by
  have hvpos : 0 < v.length := (length_pos_iff_ne _).mpr hv
  have hx : extract config req = (false, v) := by
    have e1 := extract_errored_char config req
    have e2 := extract_token_char config req
    rcases h with ⟨hq, hb, hh⟩ | ⟨hq, hb, hh⟩ | ⟨hq, hb, hh⟩
    · have hsq : sourceValue config req Source.query = some v := by
        simp [sourceValue, hq, hvpos]
      have hsb : sourceValue config req Source.body = none := by
        simp [sourceValue, hb]
      rw [hsq, hsb, hh] at e1 e2
      calc extract config req = ((extract config req).1, (extract config req).2) := rfl
        _ = (false, v) := by rw [e1, e2]; simp
    · have hsq : sourceValue config req Source.query = none := by
        simp [sourceValue, hq]
      have hsb : sourceValue config req Source.body = some v := by
        simp [sourceValue, hb, hvpos]
      rw [hsq, hsb, hh] at e1 e2
      calc extract config req = ((extract config req).1, (extract config req).2) := rfl
        _ = (false, v) := by rw [e1, e2]; simp
    · have hsq : sourceValue config req Source.query = none := by
        simp [sourceValue, hq]
      have hsb : sourceValue config req Source.body = none := by
        simp [sourceValue, hb]
      have hsh : sourceValue config req Source.header = some v :=
        sourceValue_header_of_split config req v hh
      rw [hsq, hsb, hsh] at e1 e2
      calc extract config req = ((extract config req).1, (extract config req).2) := rfl
        _ = (false, v) := by rw [e1, e2]; simp
  refine ⟨hx, ?_⟩
  have hs := handle_success config req ctx (by rw [hx])
  rw [hx] at hs
  exact hs

/-- Claim C2 witness: `Authorization: Bearer nanachi-cute` with no query and
no body yields the token "nanachi-cute" and passes through. -/
theorem extract_single_source_token_witness :
    "nanachi-cute" ≠ "" ∧
    (extract (New none) reqHeaderOnly = (false, "nanachi-cute") ∧
     handle (New none) reqHeaderOnly ctx0
       = { ctx0 with locals := setLocal ctx0.locals (New none).requestKey "nanachi-cute",
                     nextCalled := true }) :=
  ⟨by decide,
   extract_single_source_token (New none) reqHeaderOnly "nanachi-cute" ctx0 (by decide)
     (Or.inr (Or.inr (by refine ⟨rfl, rfl, by decide⟩)))⟩

/-- Claim C4: a present `Authorization` header that has no space or whose
scheme component differs from `config.headerKey` contributes nothing: the
extraction result and the handler outcome equal those of the same request
with the header removed. -/
theorem mismatched_header_treated_as_absent (config : Config) (req : Request)
    (ctx : Ctx) (hpres : req.authorization ≠ "")
    (hbad : ∀ c r, splitN2 req.authorization = [c, r] → c ≠ config.headerKey) :
    extract config req = extract config { req with authorization := "" } ∧
    handle config req ctx = handle config { req with authorization := "" } ctx := by
  have hpos : 0 < req.authorization.length := (length_pos_iff_ne _).mpr hpres
  have hh : sourceValue config req Source.header = none := by
    unfold sourceValue
    rcases hsp : splitN2 req.authorization with _ | ⟨x, _ | ⟨y, _ | ⟨z, l⟩⟩⟩ <;>
    first
    | simp [hsp, hpos, hbad x y hsp]
    | simp [hsp, hpos]
  have hh2 : sourceValue config { req with authorization := "" } Source.header = none := rfl
  have hx : extract config req = extract config { req with authorization := "" } := by
    rw [extract_eq_steps, extract_eq_steps, hh, hh2]
    rfl
  refine ⟨hx, ?_⟩
  unfold handle
  rw [hx]

/-- Claim C4 witness: `Authorization: Basic nanachi-cute` behaves exactly as
if the header were absent. -/
theorem mismatched_header_treated_as_absent_witness :
    extract (New none) reqBasicHeader
      = extract (New none) { reqBasicHeader with authorization := "" } ∧
    handle (New none) reqBasicHeader ctx0
      = handle (New none) { reqBasicHeader with authorization := "" } ctx0 :=
  mismatched_header_treated_as_absent (New none) reqBasicHeader ctx0 (by decide)
    (by
      intro c r h
      have hsp : splitN2 reqBasicHeader.authorization = ["Basic", "nanachi-cute"] := by
        decide
      rw [hsp] at h
      injection h with h1 h2
      rw [← h1]
      decide)

/-- Claim C5: when no source supplies anything (empty query and body lookups,
no matching-scheme header), extraction succeeds with the empty token and the
handler publishes "" and invokes the next handler. -/
theorem extract_no_source_empty_token (config : Config) (req : Request) (ctx : Ctx)
    (hq : req.query config.queryKey = "") (hb : req.body config.bodyKey = "")
    (hh : sourceValue config req Source.header = none) :
    extract config req = (false, "") ∧
    handle config req ctx
      = { ctx with locals := setLocal ctx.locals config.requestKey "",
                   nextCalled := true } := by
  have hsq : sourceValue config req Source.query = none := by
    simp [sourceValue, hq]
  have hsb : sourceValue config req Source.body = none := by
    simp [sourceValue, hb]
  have hx : extract config req = (false, "") := by
    rw [extract_eq_steps, hsq, hsb, hh]
    rfl
  refine ⟨hx, ?_⟩
  have hs := handle_success config req ctx (by rw [hx])
  rw [hx] at hs
  exact hs

/-- Claim C5 witness: the empty request passes through with the empty token
published. -/
theorem extract_no_source_empty_token_witness :
    extract (New none) reqEmpty = (false, "") ∧
    handle (New none) reqEmpty ctx0
      = { ctx0 with locals := setLocal ctx0.locals (New none).requestKey "",
                    nextCalled := true } :=
  extract_no_source_empty_token (New none) reqEmpty ctx0 rfl rfl rfl

/-- Claim C9: an `Authorization` header that is exactly the configured scheme
followed by a single space (so it splits into a matching scheme and an empty
credential) overwrites the token with the empty string, and when the query or
the body had already supplied a non-empty value the request is rejected with
status 400. -/
theorem empty_credential_header_conflict (config : Config) (req : Request) (ctx : Ctx)
    (hsp : splitN2 req.authorization = [config.headerKey, ""])
    (hqb : req.query config.queryKey ≠ "" ∨ req.body config.bodyKey ≠ "") :
    extract config req = (true, "") ∧
    handle config req ctx = { ctx with status := 400, sentBody := some "" } := by
  have hsh : sourceValue config req Source.header = some "" :=
    sourceValue_header_of_split config req "" hsp
  have e1 : (extract config req).1 = true := by
    rw [extract_errored_char, hsh]
    rcases hqb with hq | hb
    · have hsq : sourceValue config req Source.query = some (req.query config.queryKey) := by
        simp [sourceValue, (length_pos_iff_ne _).mpr hq]
      simp [hsq]
    · have hsb : sourceValue config req Source.body = some (req.body config.bodyKey) := by
        simp [sourceValue, (length_pos_iff_ne _).mpr hb]
      simp [hsb]
  have e2 : (extract config req).2 = "" := by
    rw [extract_token_char, hsh]
    rfl
  have hx : extract config req = (true, "") := by
    calc extract config req = ((extract config req).1, (extract config req).2) := rfl
      _ = (true, "") := by rw [e1, e2]
  exact ⟨hx, handle_errored config req ctx e1⟩

/-- Claim C9 witness: query `access_token=nanachi-cute` plus header
`Authorization: Bearer ` is rejected with 400 and the cached token is "". -/
theorem empty_credential_header_conflict_witness :
    extract (New none) reqQueryEmptyCredHeader = (true, "") ∧
    handle (New none) reqQueryEmptyCredHeader ctx0
      = { ctx0 with status := 400, sentBody := some "" } :=
  empty_credential_header_conflict (New none) reqQueryEmptyCredHeader ctx0 (by decide)
    (Or.inl (by decide))

/-- Claim C6 (counterexample): on the request with query
`access_token=nanachi-cute` and header `Authorization: Bearer ` the fixed
order query-body-header yields a conflict, while the order
header-query-body — a permutation of it — does not. -/
theorem conflict_order_dependent_cex :
    extract (New none) reqQueryEmptyCredHeader
      = extractOrder (New none) reqQueryEmptyCredHeader stdOrder ∧
    [Source.header, Source.query, Source.body].Perm stdOrder ∧
    (extractOrder (New none) reqQueryEmptyCredHeader stdOrder).1 = true ∧
    (extractOrder (New none) reqQueryEmptyCredHeader
        [Source.header, Source.query, Source.body]).1 = false := by
  refine ⟨by decide, by decide, by decide, by decide⟩

/-- Claim C6 (amended) witness: on the query+header request with a non-empty
credential, checking the sources in the order header-body-query yields the
same conflict outcome as the code's fixed order. -/
theorem conflict_order_independent_of_nonempty_witness :
    (extractOrder (New none) reqQueryHeader
        [Source.header, Source.body, Source.query]).1
      = (extract (New none) reqQueryHeader).1 :=
  conflict_order_independent_of_nonempty (New none) reqQueryHeader
    [Source.header, Source.body, Source.query] (by decide)
    (by
      intro v hv
      have hx : sourceValue (New none) reqQueryHeader Source.header
          = some "nanachi-cute" := by decide
      rw [hx] at hv
      injection hv with hv
      rw [← hv]
      decide)

end BearerToken

namespace BearerToken

/-- Claim C8: on every successful (conflict-free) extraction the final token —
including the empty string — is published to the request-scoped locals under
exactly the key `config.requestKey`, downstream reads by that key see it, and
with a custom requestKey the default name "token" is untouched. -/
theorem publishes_token_under_requestKey (config : Config) (req : Request)
    (ctx : Ctx) (h : (extract config req).1 = false) :
    (handle config req ctx).locals
      = (config.requestKey, (extract config req).2) :: ctx.locals ∧
    getLocal (handle config req ctx).locals config.requestKey
      = some (extract config req).2 ∧
    (handle config req ctx).nextCalled = true ∧
    (config.requestKey ≠ "token" →
      getLocal (handle config req ctx).locals "token" = getLocal ctx.locals "token") := by
  have hs := handle_success config req ctx h
  rw [hs]
  refine ⟨rfl, ?_, rfl, ?_⟩
  · simp [getLocal, setLocal]
  · intro hne
    simp [getLocal, setLocal, hne]

/-- Claim C8 witness: with the all-renamed configuration the token from
`custom_token=nanachi-cute` is published under "bearer" and the default key
"token" stays unset. -/
theorem publishes_token_under_requestKey_witness :
    (handle cfgCustom reqCustomQuery ctx0).locals
      = (cfgCustom.requestKey, (extract cfgCustom reqCustomQuery).2) :: ctx0.locals ∧
    getLocal (handle cfgCustom reqCustomQuery ctx0).locals cfgCustom.requestKey
      = some (extract cfgCustom reqCustomQuery).2 ∧
    (handle cfgCustom reqCustomQuery ctx0).nextCalled = true ∧
    (cfgCustom.requestKey ≠ "token" →
      getLocal (handle cfgCustom reqCustomQuery ctx0).locals "token"
        = getLocal ctx0.locals "token") :=
  publishes_token_under_requestKey cfgCustom reqCustomQuery ctx0 (by decide)

end BearerToken
